import Mathlib

/-!
Shallow embedding of the atlantis command-orchestration core:
`server/locks_controller.go` and `server/events/command_runner.go`.

External collaborators (lock store, working-dir locker, VCS client,
project command builder/runner, commit-status updater) are modelled as
pure functions supplied in an environment record; handlers return the
HTTP response (or run outcome) together with a trace of the externally
visible side effects (store calls, comment posts, status updates, log
events), so that claims about "posts exactly one comment" or "does not
touch the store" become statements about that trace.

A Go panic raised by a collaborator is modelled by the `PanicOr` sum;
an abnormal handler termination (such as an out-of-range index) is
modelled by an `Option` response whose `none` value means the handler
never produced an HTTP response.
-/

namespace Atlantis

/-- VCS host type tag, mirroring models.VCSHostType. Go enums are open
integers, so a value other than the two declared constants is
representable; the source switches on this with a default arm. -/
inductive VCSType
  | github
  | gitlab
  | otherVCS
deriving DecidableEq

/-- Pull request state, mirroring models.PullRequestState. -/
inductive PullState
  | opened
  | closed
deriving DecidableEq

/-- Commit status state, mirroring vcs.CommitStatus; the runner itself
only ever constructs the pending state. -/
inductive CommitState
  | pending
  | success
  | failed
deriving DecidableEq

/-- Modelled from the spec: models.Repo is not under src/. The runner
and locks controller use its full name, its owner, and its VCS host
type tag. -/
structure Repo where
  fullName : String
  owner : String
  vcsType : VCSType
deriving DecidableEq

/-- The Go zero value of models.Repo, written (models.Repo \x7b\x7d) in the
source; the zero value of the host-type integer is the first constant. -/
def Repo.zero : Repo := { fullName := "", owner := "", vcsType := .github }

/-- Modelled from the spec: models.PullRequest is not under src/. The
code uses its number, author, URL, base repository and open/closed
state. -/
structure PullRequest where
  num : Int
  author : String
  url : String
  baseRepo : Repo
  state : PullState
deriving DecidableEq

/-- Modelled from the spec: models.Project is not under src/; it carries
the repository full name and the project relative path. -/
structure Project where
  repoFullName : String
  path : String
deriving DecidableEq

/-- Modelled from the spec: models.ProjectLock is not under src/; the
locks controller reads its project, pull and workspace. -/
structure ProjectLock where
  project : Project
  pull : PullRequest
  workspace : String
deriving DecidableEq

/-- Log severity levels of the log15 logger used by the source. -/
inductive LogLvl
  | debug
  | info
  | warn
  | error
deriving DecidableEq

/-! ## Percent decoding (net/url)

`GetLock` decodes the id with url.QueryUnescape and `DeleteLock` with
url.PathUnescape. In the Go standard library both run the same loop;
the only behavioural difference between the two modes on the inputs at
hand is that query mode turns a plus character into a space while path
mode leaves it alone, and both reject a percent sign not followed by
two hex digits. -/

/-- Go ishex: is the character an ASCII hex digit. -/
def isHex (c : Char) : Bool :=
  (decide ('0' ≤ c) && decide (c ≤ '9')) ||
  (decide ('a' ≤ c) && decide (c ≤ 'f')) ||
  (decide ('A' ≤ c) && decide (c ≤ 'F'))

/-- Go unhex: numeric value of an ASCII hex digit. -/
def unhex (c : Char) : Nat :=
  if '0' ≤ c ∧ c ≤ '9' then c.toNat - '0'.toNat
  else if 'a' ≤ c ∧ c ≤ 'f' then c.toNat - 'a'.toNat + 10
  else if 'A' ≤ c ∧ c ≤ 'F' then c.toNat - 'A'.toNat + 10
  else 0

/-- The byte decoded from a percent escape, as a character. -/
def hexChar (a b : Char) : Char := Char.ofNat (16 * unhex a + unhex b)

/-- Go net/url unescape on a character sequence. `plusToSpace` is true
for query mode (QueryUnescape) and false for path mode (PathUnescape);
`none` models the EscapeError return for a malformed percent escape. -/
def unescapeChars (plusToSpace : Bool) : List Char → Option (List Char)
  | [] => some []
  | c :: t =>
    if c = '%' then
      match t with
      | a :: b :: t2 =>
        if isHex a && isHex b then
          (unescapeChars plusToSpace t2).map (fun u => hexChar a b :: u)
        else none
      | _ => none
    else if c = '+' then
      (unescapeChars plusToSpace t).map
        (fun u => (if plusToSpace then ' ' else '+') :: u)
    else (unescapeChars plusToSpace t).map (fun u => c :: u)

/-- url.QueryUnescape. -/
def queryUnescape (s : String) : Option String :=
  (unescapeChars true s.data).map String.mk

/-- url.PathUnescape. -/
def pathUnescape (s : String) : Option String :=
  (unescapeChars false s.data).map String.mk

/-- Go strings.Split with a one-character separator: always returns at
least one piece, the pieces joined by the separator give back the
input. -/
def splitOnChar (sep : Char) : List Char → List (List Char)
  | [] => [[]]
  | c :: t =>
    if c = sep then [] :: splitOnChar sep t
    else
      match splitOnChar sep t with
      | [] => [[c]]
      | h :: r => (c :: h) :: r

/-! ## LocksController (server/locks_controller.go)

The controller depends on a lock store (locking.Locker), a working-dir
locker, a working-dir deleter and a VCS comment client; all are
external collaborators modelled as pure functions. -/

/-- Collaborator environment of the LocksController. An Except.error of
the store functions models a Go non-nil error return. -/
structure LocksEnv where
  getLockStore : String → Except String (Option ProjectLock)
  unlockStore : String → Except String (Option ProjectLock)
  wdTryLock : String → String → Int → Except String Unit
  deleteForWorkspace : Repo → PullRequest → String → Option String
  createComment : Repo → Int → String → Option String
  atlantisVersion : String

/-- View data of the lock detail template, mirroring LockDetailData. -/
structure LockDetailData where
  lockKeyEncoded : String
  lockKey : String
  repoOwner : String
  repoName : String
  pullRequestLink : String
  lockedBy : String
  workspace : String
  atlantisVersion : String
deriving DecidableEq

/-- Outcome of the GET handler: either a plain status code written by
the respond helper, or the rendered 200 detail page. -/
inductive GetResp
  | code (status : Nat)
  | page (d : LockDetailData)
deriving DecidableEq

/-- HTTP status of a GET outcome; the template render path writes 200. -/
def GetResp.status : GetResp → Nat
  | .code s => s
  | .page _ => 200

/-- Result of one GetLock invocation: the response (`none` models the
handler terminating abnormally before writing any response, as an
out-of-range index does in Go), and the ids the lock store was
queried with. -/
structure GetLockResult where
  response : Option GetResp
  queried : List String
deriving DecidableEq

/-- GetLock, the GET /locks/\x7bid\x7d route. The id is decoded with
url.QueryUnescape; the repo owner and name are the first two pieces of
the split of the full repository name on the slash, and taking the
second piece terminates the handler abnormally when the split has only
one piece. -/
def getLock (env : LocksEnv) (idVar : Option String) : GetLockResult :=
  match idVar with
  | none => { response := some (.code 400), queried := [] }
  | some id =>
    match queryUnescape id with
    | none => { response := some (.code 400), queried := [] }
    | some idUnencoded =>
      match env.getLockStore idUnencoded with
      | .error _ => { response := some (.code 500), queried := [idUnencoded] }
      | .ok none => { response := some (.code 404), queried := [idUnencoded] }
      | .ok (some lock) =>
        match splitOnChar '/' lock.project.repoFullName.data with
        | a :: b :: _ =>
          { response := some (.page
              { lockKeyEncoded := id
                lockKey := idUnencoded
                repoOwner := String.mk a
                repoName := String.mk b
                pullRequestLink := lock.pull.url
                lockedBy := lock.pull.author
                workspace := lock.workspace
                atlantisVersion := env.atlantisVersion })
            queried := [idUnencoded] }
        | _ => { response := none, queried := [idUnencoded] }

/-- The comment DeleteLock posts on the pull request. -/
def discardedComment (path workspace : String) : String :=
  "Warning: The plan for dir " ++ path ++ " workspace " ++ workspace ++
  " was discarded via the Atlantis UI. To apply you must run plan again."

/-- The view data the 200 path of GetLock renders, as a function of the
encoded id, the decoded id, the lock and the two leading pieces of the
slash-split of the repository full name. -/
def lockViewData (id d : String) (lock : ProjectLock) (a b : List Char)
    (version : String) : LockDetailData :=
  { lockKeyEncoded := id, lockKey := d, repoOwner := String.mk a,
    repoName := String.mk b, pullRequestLink := lock.pull.url,
    lockedBy := lock.pull.author, workspace := lock.workspace,
    atlantisVersion := version }

/-- Result of one DeleteLock invocation: HTTP status, the log events in
order, the comment posts attempted, the working-dir lock acquisitions
attempted, the workspace deletions attempted, and the ids Unlock was
called with. -/
structure DeleteLockResult where
  status : Nat
  logs : List (LogLvl × String)
  comments : List (Repo × Int × String)
  wdLockCalls : List (String × String × Int)
  deleteCalls : List (Repo × PullRequest × String)
  unlockCalls : List String
deriving DecidableEq

/-- DeleteLock, the DELETE /locks/\x7bid\x7d route. The id is decoded with
url.PathUnescape. After a successful Unlock of a lock whose pull has a
non-zero base repository, the handler tries the working-dir lock and
the workspace deletion, logging failures (the source logs the deletion
message unconditionally, a defect the spec notes), and then posts the
discard comment: only a comment-post failure yields a 500. -/
def deleteLock (env : LocksEnv) (idVar : Option String) : DeleteLockResult :=
  match idVar with
  | none =>
    { status := 400, logs := [(.warn, "No lock id in request")],
      comments := [], wdLockCalls := [], deleteCalls := [], unlockCalls := [] }
  | some id =>
    if id = "" then
      { status := 400, logs := [(.warn, "No lock id in request")],
        comments := [], wdLockCalls := [], deleteCalls := [], unlockCalls := [] }
    else
      match pathUnescape id with
      | none =>
        { status := 400, logs := [(.warn, "Invalid lock id")],
          comments := [], wdLockCalls := [], deleteCalls := [], unlockCalls := [] }
      | some idUnencoded =>
        match env.unlockStore idUnencoded with
        | .error _ =>
          { status := 500, logs := [(.error, "deleting lock failed")],
            comments := [], wdLockCalls := [], deleteCalls := [],
            unlockCalls := [idUnencoded] }
        | .ok none =>
          { status := 404, logs := [(.info, "No lock found at id")],
            comments := [], wdLockCalls := [], deleteCalls := [],
            unlockCalls := [idUnencoded] }
        | .ok (some lock) =>
          if lock.pull.baseRepo = Repo.zero then
            { status := 200,
              logs := [(.debug, "skipping commenting on pull request and deleting workspace because BaseRepo field is empty"),
                       (.info, "Deleted lock id")],
              comments := [], wdLockCalls := [], deleteCalls := [],
              unlockCalls := [idUnencoded] }
          else
            let wdCall := [(lock.pull.baseRepo.fullName, lock.workspace, lock.pull.num)]
            let cleanup :
                List (LogLvl × String) × List (Repo × PullRequest × String) :=
              match env.wdTryLock lock.pull.baseRepo.fullName lock.workspace lock.pull.num with
              | .error _ =>
                ([(.error, "unable to obtain working dir lock when trying to delete old plans")], [])
              | .ok _ =>
                ([(.error, "unable to delete workspace")],
                 [(lock.pull.baseRepo, lock.pull, lock.workspace)])
            let cmt := discardedComment lock.project.path lock.workspace
            match env.createComment lock.pull.baseRepo lock.pull.num cmt with
            | some _ =>
              { status := 500,
                logs := cleanup.1 ++ [(.error, "Failed commenting on pull request")],
                comments := [(lock.pull.baseRepo, lock.pull.num, cmt)],
                wdLockCalls := wdCall, deleteCalls := cleanup.2,
                unlockCalls := [idUnencoded] }
            | none =>
              { status := 200,
                logs := cleanup.1 ++ [(.info, "Deleted lock id")],
                comments := [(lock.pull.baseRepo, lock.pull.num, cmt)],
                wdLockCalls := wdCall, deleteCalls := cleanup.2,
                unlockCalls := [idUnencoded] }

/-! ## DefaultCommandRunner (server/events/command_runner.go)

Collaborator calls that may terminate the goroutine abnormally are
modelled with `PanicOr`; the per-invocation recovery boundary
(logPanics, installed with defer) turns a panic of the wrapped part of
the pipeline into one comment and one error log. Comment posting in
the runner ignores the client error (nolint errcheck in the source),
so a comment post is modelled as a trace event. -/

/-- Result of calling a Go collaborator that may panic. -/
inductive PanicOr (α : Type)
  | panicked (payload : String)
  | returned (a : α)
deriving DecidableEq

/-- Modelled from the spec: the raw GitHub pull data returned by the
pull getter and consumed by the event parser (both external). -/
structure GhPull where
  tag : Nat
deriving DecidableEq

/-- Modelled from the spec: the raw GitLab merge request data returned
by the merge-request getter and consumed by the event parser. -/
structure GlMR where
  tag : Nat
deriving DecidableEq

/-- Command name, mirroring events.CommandName. Go enums are open
integers and the source switch on the name carries a default arm, so a
value other than plan and apply is representable. -/
inductive CommandName
  | plan
  | apply
  | otherName
deriving DecidableEq

/-- One per-project unit produced by the project command builder; the
runner reads its relative dir and workspace. -/
structure ProjectCommand where
  repoRelDir : String
  workspace : String
  payload : Nat
deriving DecidableEq

/-- Modelled from the spec: abstract outcome of executing one unit via
the external project command runner. -/
structure ProjectCommandResult where
  code : Nat
deriving DecidableEq

/-- ProjectResult, one entry of a CommandResult per executed unit. -/
structure ProjectResult where
  projectCommandResult : ProjectCommandResult
  repoRelDir : String
  workspace : String
deriving DecidableEq

/-- CommandResult: a fatal error, a failure message, or the ordered
project results. -/
structure CommandResult where
  error : Option String
  failure : String
  projectResults : List ProjectResult
deriving DecidableEq

/-- A CommandResult carrying a fatal error. -/
def errorResult (err : String) : CommandResult :=
  { error := some err, failure := "", projectResults := [] }

/-- A CommandResult carrying the ordered project results. -/
def okResults (rs : List ProjectResult) : CommandResult :=
  { error := none, failure := "", projectResults := rs }

/-- The ProjectResult built for one executed unit. -/
def unitResult (r : ProjectCommandResult) (dir ws : String) : ProjectResult :=
  { projectCommandResult := r, repoRelDir := dir, workspace := ws }

/-- The content of a comment posted by the runner, by provenance: the
two validation comments, the rendered run result (the renderer also
embeds the accumulated log history, elided here), and the panic
comment built by logPanics from the payload and the stack. -/
inductive CommentBody
  | forkDisallowed (flag : String)
  | closedPull
  | rendered (res : CommandResult) (name : CommandName) (verbose : Bool) (isAutoplan : Bool)
  | panicComment (payload : String) (stack : String)
deriving DecidableEq

/-- One externally visible side effect of a runner invocation. -/
inductive Event
  | comment (repo : Repo) (pullNum : Int) (body : CommentBody)
  | status (state : CommitState) (name : CommandName)
  | statusResult (name : CommandName) (res : CommandResult)
  | logE (lvl : LogLvl) (msg : String)
  | execPlan (cmd : ProjectCommand)
  | execApply (cmd : ProjectCommand)
deriving DecidableEq

/-- Trace of side effects, in order of occurrence. -/
abbrev Trace := List Event

/-- The comment posts of a trace, in order. -/
def commentsOf (tr : Trace) : List (Repo × Int × CommentBody) :=
  tr.filterMap fun e =>
    match e with
    | .comment r n b => some (r, n, b)
    | _ => none

/-- The pending-status updates of a trace, in order. -/
def statusesOf (tr : Trace) : List (CommitState × CommandName) :=
  tr.filterMap fun e =>
    match e with
    | .status s n => some (s, n)
    | _ => none

/-- The aggregate result-status updates of a trace, in order. -/
def statusResultsOf (tr : Trace) : List (CommandName × CommandResult) :=
  tr.filterMap fun e =>
    match e with
    | .statusResult n r => some (n, r)
    | _ => none

/-- The units executed by the project command runner, in order. -/
def executedOf (tr : Trace) : List ProjectCommand :=
  tr.filterMap fun e =>
    match e with
    | .execPlan c => some c
    | .execApply c => some c
    | _ => none

/-- The log events of a trace, in order. -/
def logsOf (tr : Trace) : List (LogLvl × String) :=
  tr.filterMap fun e =>
    match e with
    | .logE l m => some (l, m)
    | _ => none

/-- CommentCommand: the parsed user request. -/
structure CommentCommand where
  name : CommandName
  repoRelDir : String
  workspace : String
  verbose : Bool
deriving DecidableEq

/-- The CommandInterface data updatePull reads from its command
argument. -/
structure CmdInfo where
  name : CommandName
  isVerbose : Bool
  isAutoplan : Bool
deriving DecidableEq

/-- Modelled from the spec: AutoplanCommand reports the plan name, is
not verbose, and is an autoplan. -/
def autoplanInfo : CmdInfo := { name := .plan, isVerbose := false, isAutoplan := true }

/-- The CommandInterface view of a CommentCommand. -/
def commentInfo (cmd : CommentCommand) : CmdInfo :=
  { name := cmd.name, isVerbose := cmd.verbose, isAutoplan := false }

/-- CommandContext: the per-invocation context. -/
structure CommandContext where
  user : String
  pull : PullRequest
  headRepo : Repo
  baseRepo : Repo
deriving DecidableEq

/-- The per-invocation context both entry points build. -/
def mkCtx (user : String) (pull : PullRequest) (headRepo baseRepo : Repo) :
    CommandContext :=
  { user := user, pull := pull, headRepo := headRepo, baseRepo := baseRepo }

/-- Collaborator environment of the DefaultCommandRunner. The two pull
getters are optional, mirroring the possibly nil interface fields. -/
structure RunnerEnv where
  allowForkPRs : Bool
  allowForkPRsFlag : String
  githubPullGetter : Option (Repo → Int → PanicOr (Except String GhPull))
  gitlabMergeRequestGetter : Option (String → Int → PanicOr (Except String GlMR))
  parseGithubPull : GhPull → Except String (PullRequest × Repo)
  parseGitlabMergeRequest : GlMR → Repo → PullRequest
  update : Repo → PullRequest → CommitState → CommandName → PanicOr (Option String)
  updateProjectResult : CommandName → CommandResult → PanicOr (Option String)
  buildAutoplanCommands : CommandContext → PanicOr (Except String (List ProjectCommand))
  buildPlanCommand : CommandContext → CommentCommand → PanicOr (Except String ProjectCommand)
  buildApplyCommand : CommandContext → CommentCommand → PanicOr (Except String ProjectCommand)
  runPlan : ProjectCommand → PanicOr ProjectCommandResult
  runApply : ProjectCommand → PanicOr ProjectCommandResult

/-- Modelled from the spec: recovery.Stack is not under src/; it
renders a bounded-depth, non-empty stack trace of the panicking
goroutine. -/
def recoveryStack : String := "goroutine stack trace"

/-- The warn log emitted when a commit-status update returns an error;
the error is swallowed. -/
def warnIf (e : Option String) : Trace :=
  match e with
  | some _ => [.logE .warn "unable to update commit status"]
  | none => []

/-- validateCtxAndComment: rejects a fork pull request when fork PRs
are disallowed, and a pull that is not open; each rejection posts one
explanatory comment and is logged at info level. Returns the trace and
whether the context is valid. -/
def validateCtxAndComment (env : RunnerEnv) (ctx : CommandContext) : Trace × Bool :=
  if env.allowForkPRs = false ∧ ctx.headRepo.owner ≠ ctx.baseRepo.owner then
    ([.logE .info "command was run on a fork pull request which is disallowed",
      .comment ctx.baseRepo ctx.pull.num (.forkDisallowed env.allowForkPRsFlag)],
     false)
  else if ctx.pull.state ≠ .opened then
    ([.logE .info "command was run on closed pull request",
      .comment ctx.baseRepo ctx.pull.num .closedPull],
     false)
  else ([], true)

/-- updatePull: logs the fatal error or failure of the result, updates
the aggregate commit status (a panic there propagates; an error is
logged and swallowed), then renders and posts the single result
comment. The cast of the logger handler to the history handler always
succeeds because buildLogger installed one. -/
def updatePull (env : RunnerEnv) (ctx : CommandContext) (info : CmdInfo)
    (res : CommandResult) : Trace × Option String :=
  let preLogs : Trace :=
    match res.error with
    | some _ => [.logE .error "command result error"]
    | none => if res.failure ≠ "" then [.logE .warn "command result failure"] else []
  match env.updateProjectResult info.name res with
  | .panicked p => (preLogs, some p)
  | .returned e =>
    (preLogs ++ [.statusResult info.name res] ++ warnIf e ++
      [.comment ctx.baseRepo ctx.pull.num
        (.rendered res info.name info.isVerbose info.isAutoplan)],
     none)

/-- The sequential execution loop over the autoplan units: each unit is
run via the external Plan runner, its result is collected in order,
and a panic stops the loop and propagates. -/
def planAll (env : RunnerEnv) : List ProjectCommand → Trace × PanicOr (List ProjectResult)
  | [] => ([], .returned [])
  | c :: rest =>
    match env.runPlan c with
    | .panicked p => ([], .panicked p)
    | .returned r =>
      match planAll env rest with
      | (tr, .panicked p) => (.execPlan c :: tr, .panicked p)
      | (tr, .returned rs) =>
        (.execPlan c :: tr,
         .returned (unitResult r c.repoRelDir c.workspace :: rs))

/-- logPanics: the deferred per-invocation recovery boundary. A normal
outcome passes through; a panic is converted into one comment carrying
the payload and the stack plus one error log, and is not re-raised. -/
def logPanics (ctx : CommandContext) : Trace × Option String → Trace × Option String
  | (tr, none) => (tr, none)
  | (tr, some p) =>
    (tr ++ [.comment ctx.baseRepo ctx.pull.num (.panicComment p recoveryStack),
            .logE .error "PANIC"],
     none)

/-- The part of RunAutoplanCommand wrapped by the deferred logPanics:
validation, pending status, build, execute, report. The second
component is the payload of an uncaught panic of this part. -/
def autoplanBody (env : RunnerEnv) (ctx : CommandContext) : Trace × Option String :=
  match validateCtxAndComment env ctx with
  | (tr, false) => (tr, none)
  | (tr, true) =>
    match env.update ctx.baseRepo ctx.pull .pending .plan with
    | .panicked p => (tr, some p)
    | .returned e =>
      let tr1 := tr ++ [.status .pending .plan] ++ warnIf e
      match env.buildAutoplanCommands ctx with
      | .panicked p => (tr1, some p)
      | .returned (.error err) =>
        let u := updatePull env ctx autoplanInfo (errorResult err)
        (tr1 ++ u.1, u.2)
      | .returned (.ok cmds) =>
        match planAll env cmds with
        | (tr2, .panicked p) => (tr1 ++ tr2, some p)
        | (tr2, .returned results) =>
          let u := updatePull env ctx autoplanInfo (okResults results)
          (tr1 ++ tr2 ++ u.1, u.2)

/-- RunAutoplanCommand: builds the context, installs the recovery
boundary with defer, and runs the pipeline. The second component is
the payload of a panic re-raised past the invocation. -/
def runAutoplanCommand (env : RunnerEnv) (baseRepo headRepo : Repo)
    (pull : PullRequest) (user : String) : Trace × Option String :=
  let ctx := mkCtx user pull headRepo baseRepo
  logPanics ctx (autoplanBody env ctx)

/-- getGithubData: a nil pull getter is a configuration error; a getter
or parser error is wrapped; a getter panic propagates. -/
def getGithubData (env : RunnerEnv) (baseRepo : Repo) (pullNum : Int) :
    PanicOr (Except String (PullRequest × Repo)) :=
  match env.githubPullGetter with
  | none => .returned (.error "Atlantis not configured to support GitHub")
  | some getter =>
    match getter baseRepo pullNum with
    | .panicked p => .panicked p
    | .returned (.error e) =>
      .returned (.error ("making pull request API call to GitHub: " ++ e))
    | .returned (.ok gh) =>
      match env.parseGithubPull gh with
      | .error e =>
        .returned (.error ("extracting required fields from comment data: " ++ e))
      | .ok pr => .returned (.ok pr)

/-- getGitlabData: a nil merge-request getter is a configuration error;
a getter error is wrapped; a getter panic propagates. -/
def getGitlabData (env : RunnerEnv) (baseRepo : Repo) (pullNum : Int) :
    PanicOr (Except String PullRequest) :=
  match env.gitlabMergeRequestGetter with
  | none => .returned (.error "Atlantis not configured to support GitLab")
  | some getter =>
    match getter baseRepo.fullName pullNum with
    | .panicked p => .panicked p
    | .returned (.error e) =>
      .returned (.error ("making merge request API call to GitLab: " ++ e))
    | .returned (.ok mr) =>
      .returned (.ok (env.parseGitlabMergeRequest mr baseRepo))

/-- The pull-resolution step of RunCommentCommand: dispatch on the VCS
host type; for GitLab the head repo stays the one derived from the
caller-supplied optional head repo. -/
def resolveCommentPull (env : RunnerEnv) (baseRepo : Repo)
    (maybeHeadRepo : Option Repo) (pullNum : Int) :
    PanicOr (Except String (PullRequest × Repo)) :=
  match baseRepo.vcsType with
  | .github => getGithubData env baseRepo pullNum
  | .gitlab =>
    match getGitlabData env baseRepo pullNum with
    | .panicked p => .panicked p
    | .returned (.error e) => .returned (.error e)
    | .returned (.ok pull) =>
      .returned (.ok (pull, maybeHeadRepo.getD Repo.zero))
  | .otherVCS => .returned (.error "Unknown VCS type, this is a bug!")

/-- The part of RunCommentCommand wrapped by the deferred logPanics:
validation, pending status, build, execute, report, with the switch on
the command name whose default arm logs an error and returns. -/
def commentBody (env : RunnerEnv) (ctx : CommandContext) (cmd : CommentCommand) :
    Trace × Option String :=
  match validateCtxAndComment env ctx with
  | (tr, false) => (tr, none)
  | (tr, true) =>
    match env.update ctx.baseRepo ctx.pull .pending cmd.name with
    | .panicked p => (tr, some p)
    | .returned e =>
      let tr1 := tr ++ [.status .pending cmd.name] ++ warnIf e
      match cmd.name with
      | .plan =>
        match env.buildPlanCommand ctx cmd with
        | .panicked p => (tr1, some p)
        | .returned (.error err) =>
          let u := updatePull env ctx (commentInfo cmd) (errorResult err)
          (tr1 ++ u.1, u.2)
        | .returned (.ok pc) =>
          match env.runPlan pc with
          | .panicked p => (tr1, some p)
          | .returned r =>
            let u := updatePull env ctx (commentInfo cmd)
              (okResults [unitResult r cmd.repoRelDir cmd.workspace])
            (tr1 ++ [.execPlan pc] ++ u.1, u.2)
      | .apply =>
        match env.buildApplyCommand ctx cmd with
        | .panicked p => (tr1, some p)
        | .returned (.error err) =>
          let u := updatePull env ctx (commentInfo cmd) (errorResult err)
          (tr1 ++ u.1, u.2)
        | .returned (.ok pc) =>
          match env.runApply pc with
          | .panicked p => (tr1, some p)
          | .returned r =>
            let u := updatePull env ctx (commentInfo cmd)
              (okResults [unitResult r cmd.repoRelDir cmd.workspace])
            (tr1 ++ [.execApply pc] ++ u.1, u.2)
      | .otherName =>
        (tr1 ++ [.logE .error "failed to determine desired command, neither plan nor apply"],
         none)

/-- RunCommentCommand: resolves the authoritative pull data first (a
panic there is raised before the deferred logPanics is installed and
escapes the invocation; a resolution error is logged and aborts with
no further side effects), then builds the context, installs the
recovery boundary and runs the pipeline. -/
def runCommentCommand (env : RunnerEnv) (baseRepo : Repo)
    (maybeHeadRepo : Option Repo) (user : String) (pullNum : Int)
    (cmd : CommentCommand) : Trace × Option String :=
  match resolveCommentPull env baseRepo maybeHeadRepo pullNum with
  | .panicked p => ([], some p)
  | .returned (.error e) => ([.logE .error e], none)
  | .returned (.ok (pull, headRepo)) =>
    let ctx := mkCtx user pull headRepo baseRepo
    logPanics ctx (commentBody env ctx cmd)

/-! ## Concrete instances used to evaluate the model -/

/-- A sample repository. -/
def sampleRepo : Repo := { fullName := "octo/infra", owner := "octo", vcsType := .github }

/-- A sample open pull request on the sample repository. -/
def samplePull : PullRequest :=
  { num := 5, author := "alice", url := "https://example.com/pull/5",
    baseRepo := sampleRepo, state := .opened }

/-- A sample lock whose repository full name contains a slash. -/
def sampleLock : ProjectLock :=
  { project := { repoFullName := "octo/infra", path := "dir" },
    pull := samplePull, workspace := "default" }

/-- A lock whose repository full name contains no slash. -/
def noSlashLock : ProjectLock :=
  { project := { repoFullName := "legacyrepo", path := "dir" },
    pull := samplePull, workspace := "default" }

/-- A locks-controller environment whose collaborators all succeed and
whose store holds nothing. -/
def happyLocksEnv : LocksEnv :=
  { getLockStore := fun _ => .ok none
    unlockStore := fun _ => .ok none
    wdTryLock := fun _ _ _ => .ok ()
    deleteForWorkspace := fun _ _ _ => none
    createComment := fun _ _ _ => none
    atlantisVersion := "0.4.0" }

/-- A sample per-project unit. -/
def sampleUnit : ProjectCommand := { repoRelDir := ".", workspace := "default", payload := 0 }

/-- A runner environment whose collaborators all succeed. -/
def happyRunnerEnv : RunnerEnv :=
  { allowForkPRs := false
    allowForkPRsFlag := "allow-fork-prs"
    githubPullGetter := some fun _ _ => .returned (.ok { tag := 0 })
    gitlabMergeRequestGetter := some fun _ _ => .returned (.ok { tag := 0 })
    parseGithubPull := fun _ => .ok (samplePull, sampleRepo)
    parseGitlabMergeRequest := fun _ _ => samplePull
    update := fun _ _ _ _ => .returned none
    updateProjectResult := fun _ _ => .returned none
    buildAutoplanCommands := fun _ => .returned (.ok [sampleUnit])
    buildPlanCommand := fun _ _ => .returned (.ok sampleUnit)
    buildApplyCommand := fun _ _ => .returned (.ok sampleUnit)
    runPlan := fun _ => .returned { code := 0 }
    runApply := fun _ => .returned { code := 0 } }

/-- A sample comment command requesting a plan. -/
def samplePlanCmd : CommentCommand :=
  { name := .plan, repoRelDir := ".", workspace := "default", verbose := false }

/-- A comment command whose name is neither plan nor apply. -/
def otherNameCmd : CommentCommand :=
  { name := .otherName, repoRelDir := ".", workspace := "default", verbose := false }

/-- The context passes validateCtxAndComment: the pull is open, and the
head owner matches the base owner unless fork PRs are allowed. -/
def validationPasses (env : RunnerEnv) (ctx : CommandContext) : Prop :=
  (env.allowForkPRs = true ∨ ctx.headRepo.owner = ctx.baseRepo.owner) ∧
  ctx.pull.state = .opened

/-- The context fails validateCtxAndComment: a disallowed fork pull
request, or a pull that is not open. -/
def validationFails (env : RunnerEnv) (ctx : CommandContext) : Prop :=
  (env.allowForkPRs = false ∧ ctx.headRepo.owner ≠ ctx.baseRepo.owner) ∨
  ctx.pull.state ≠ .opened

/-- A legacy lock whose pull carries the zero base repository. -/
def zeroBaseLock : ProjectLock :=
  { sampleLock with pull := { samplePull with baseRepo := Repo.zero } }

/-- Locks environment whose unlock yields the sample lock and whose
working-dir locker always fails. -/
def wdFailLocksEnv : LocksEnv :=
  { happyLocksEnv with
      unlockStore := fun _ => .ok (some sampleLock)
      wdTryLock := fun _ _ _ => .error "working dir already locked" }

/-- Locks environment whose unlock yields the legacy zero-base lock. -/
def zeroBaseLocksEnv : LocksEnv :=
  { happyLocksEnv with unlockStore := fun _ => .ok (some zeroBaseLock) }

/-- Locks environment whose get store yields the no-slash lock. -/
def noSlashLocksEnv : LocksEnv :=
  { happyLocksEnv with getLockStore := fun _ => .ok (some noSlashLock) }

/-- Locks environment whose get store yields the sample lock. -/
def slashLocksEnv : LocksEnv :=
  { happyLocksEnv with getLockStore := fun _ => .ok (some sampleLock) }

/-- Runner environment whose GitHub pull getter panics. -/
def getterPanicsEnv : RunnerEnv :=
  { happyRunnerEnv with githubPullGetter := some (fun _ _ => .panicked "boom") }

/-- Runner environment whose autoplan builder panics. -/
def builderPanicsEnv : RunnerEnv :=
  { happyRunnerEnv with buildAutoplanCommands := fun _ => .panicked "builder exploded" }

/-- Runner environment with no GitHub pull getter configured. -/
def noGetterEnv : RunnerEnv :=
  { happyRunnerEnv with githubPullGetter := none }

/-- A first distinct sample unit. -/
def unitOne : ProjectCommand := { repoRelDir := "dir1", workspace := "default", payload := 1 }

/-- A second distinct sample unit. -/
def unitTwo : ProjectCommand := { repoRelDir := "dir2", workspace := "staging", payload := 2 }

/-- Runner environment whose builder yields two units and whose plan
runner tags each result with the unit payload. -/
def twoUnitEnv : RunnerEnv :=
  { happyRunnerEnv with
      buildAutoplanCommands := fun _ => .returned (.ok [unitOne, unitTwo])
      runPlan := fun c => .returned { code := c.payload } }

/-- A closed sample pull request. -/
def closedSamplePull : PullRequest := { samplePull with state := .closed }

/-! ## Lemmas about percent decoding and splitting -/

/-- Query decoding and path decoding of a sequence containing a literal
plus character can never agree: the plus position decodes to a space
in query mode and to a plus in path mode. -/
theorem unescape_plus_ne_aux :
    ∀ (n : Nat) (l : List Char), l.length ≤ n → ∀ p q,
      '+' ∈ l → unescapeChars false l = some p →
      unescapeChars true l = some q → q ≠ p := by
  intro n
  induction n with
  | zero =>
    intro l hl p q hmem _ _
    rw [Nat.le_zero, List.length_eq_zero] at hl
    subst hl
    simp at hmem
  | succ n ih =>
    intro l hl p q hmem hp hq
    rcases l with _ | ⟨c, t⟩
    · simp at hmem
    · rw [List.mem_cons] at hmem
      by_cases hc : c = '%'
      · subst hc
        rw [unescapeChars.eq_def] at hp hq
        rcases t with _ | ⟨a, _ | ⟨b, t2⟩⟩
        · simp at hp
        · simp at hp
        · by_cases hhex : (isHex a && isHex b) = true
          · simp only [hhex, if_true, if_pos, reduceIte] at hp hq
            rw [Option.map_eq_some'] at hp hq
            obtain ⟨p2, hp2, hpe⟩ := hp
            obtain ⟨q2, hq2, hqe⟩ := hq
            have ha : a ≠ '+' := by
              intro h
              rw [h] at hhex
              simp [isHex] at hhex
            have hb : b ≠ '+' := by
              intro h
              rw [h] at hhex
              simp [isHex] at hhex
            have hmem2 : '+' ∈ t2 := by
              rw [List.mem_cons, List.mem_cons] at hmem
              rcases hmem with h | h | h | h
              · exact absurd h (by decide)
              · exact absurd h.symm ha
              · exact absurd h.symm hb
              · exact h
            have hlen : t2.length ≤ n := by
              simp only [List.length_cons] at hl
              omega
            have hne := ih t2 hlen p2 q2 hmem2 hp2 hq2
            rw [← hpe, ← hqe]
            intro hcontra
            injection hcontra with h1 h2
            exact hne h2
          · simp [hhex] at hp
      · by_cases hc2 : c = '+'
        · subst hc2
          rw [unescapeChars.eq_def] at hp hq
          simp only [reduceIte] at hp hq
          rw [if_neg (show ('+' : Char) = '%' → False by decide)] at hp hq
          rw [Option.map_eq_some'] at hp hq
          obtain ⟨p2, hp2, hpe⟩ := hp
          obtain ⟨q2, hq2, hqe⟩ := hq
          rw [← hpe, ← hqe]
          simp
        · rw [unescapeChars.eq_def] at hp hq
          simp only [reduceIte] at hp hq
          rw [if_neg hc, if_neg hc2] at hp hq
          rw [Option.map_eq_some'] at hp hq
          obtain ⟨p2, hp2, hpe⟩ := hp
          obtain ⟨q2, hq2, hqe⟩ := hq
          have hmem2 : '+' ∈ t := by
            rcases hmem with h | h
            · exact absurd h.symm hc2
            · exact h
          have hlen : t.length ≤ n := by
            simp only [List.length_cons] at hl
            omega
          have hne := ih t hlen p2 q2 hmem2 hp2 hq2
          rw [← hpe, ← hqe]
          intro hcontra
          injection hcontra with h1 h2
          exact hne h2

/-- String-level version: a lock id containing a plus character that
both routes decode decodes to different keys. -/
theorem unescape_plus_ne (s : String) (p q : String)
    (hmem : '+' ∈ s.data) (hp : pathUnescape s = some p)
    (hq : queryUnescape s = some q) : q ≠ p := by
  rw [pathUnescape, Option.map_eq_some'] at hp
  rw [queryUnescape, Option.map_eq_some'] at hq
  obtain ⟨pl, hpl, hpe⟩ := hp
  obtain ⟨ql, hql, hqe⟩ := hq
  have hne := unescape_plus_ne_aux s.data.length s.data le_rfl pl ql hmem hpl hql
  rw [← hpe, ← hqe]
  intro hcontra
  apply hne
  have : (String.mk ql).data = (String.mk pl).data := by rw [hcontra]
  simpa using this

/-- Splitting a sequence that does not contain the separator yields the
single piece, so the Go index expression repo[1] is out of range. -/
theorem splitOnChar_not_mem (sep : Char) :
    ∀ l : List Char, sep ∉ l → splitOnChar sep l = [l] := by
  intro l
  induction l with
  | nil => intro _; rfl
  | cons c t ih =>
    intro h
    rw [List.mem_cons, not_or] at h
    obtain ⟨hc, ht⟩ := h
    have hcne : ¬ c = sep := fun hcc => hc hcc.symm
    rw [splitOnChar.eq_def]
    simp only [reduceIte]
    rw [if_neg hcne, ih ht]

/-- Splitting a sequence containing the separator yields at least two
pieces. -/
theorem splitOnChar_mem (sep : Char) :
    ∀ l : List Char, sep ∈ l → ∃ a b r, splitOnChar sep l = a :: b :: r := by
  intro l
  induction l with
  | nil => intro h; simp at h
  | cons c t ih =>
    intro h
    by_cases hc : c = sep
    · subst hc
      rcases hsp : splitOnChar c t with _ | ⟨h0, r⟩
      · cases t with
        | nil => simp [splitOnChar] at hsp
        | cons x xs =>
          rw [splitOnChar.eq_def] at hsp
          simp only [reduceIte] at hsp
          by_cases hx : x = c
          · rw [if_pos hx] at hsp
            simp at hsp
          · rw [if_neg hx] at hsp
            rcases hsp2 : splitOnChar c xs with _ | ⟨y, ys⟩ <;>
              rw [hsp2] at hsp <;> simp at hsp
      · refine ⟨[], h0, r, ?_⟩
        rw [splitOnChar.eq_def]
        simp only [reduceIte]
        rw [hsp]
    · have hmem : sep ∈ t := by
        rw [List.mem_cons] at h
        rcases h with h | h
        · exact absurd h.symm hc
        · exact h
      obtain ⟨a, b, r, heq⟩ := ih hmem
      refine ⟨c :: a, b, r, ?_⟩
      rw [splitOnChar.eq_def]
      simp only [reduceIte]
      rw [if_neg hc, heq]

/-- After a successful decode, GetLock always consults the store at
exactly the decoded key, whatever the store answers. -/
theorem getLock_queried (env : LocksEnv) (s d : String)
    (hdec : queryUnescape s = some d) :
    (getLock env (some s)).queried = [d] := by
  rcases hst : env.getLockStore d with msg | lockOpt
  · simp [getLock, hdec, hst]
  · rcases lockOpt with _ | lock
    · simp [getLock, hdec, hst]
    · rcases hsp : splitOnChar '/' lock.project.repoFullName.data with _ | ⟨a, _ | ⟨b, r⟩⟩ <;>
        simp [getLock, hdec, hst, hsp]

/-- After a successful decode of a non-empty id, DeleteLock always
calls Unlock at exactly the decoded key, whatever the store answers. -/
theorem deleteLock_unlockCalls (env : LocksEnv) (s d : String)
    (hs : ¬ s = "") (hdec : pathUnescape s = some d) :
    (deleteLock env (some s)).unlockCalls = [d] := by
  rcases hst : env.unlockStore d with msg | lockOpt
  · simp [deleteLock, hs, hdec, hst]
  · rcases lockOpt with _ | lock
    · simp [deleteLock, hs, hdec, hst]
    · by_cases hz : lock.pull.baseRepo = Repo.zero
      · simp [deleteLock, hs, hdec, hst, hz]
      · rcases hcc : env.createComment lock.pull.baseRepo lock.pull.num
            (discardedComment lock.project.path lock.workspace) with _ | msg <;>
          rcases hwd : env.wdTryLock lock.pull.baseRepo.fullName lock.workspace
            lock.pull.num with e | u <;>
          simp [deleteLock, hs, hdec, hst, hz, hcc, hwd]

/-- Claim C3: in DeleteLock, once Unlock has removed a lock carrying a
non-zero base repository, a failure to acquire the working-dir lock or
to delete the workspace is logged at error level but the response is
still 200 as long as the comment post succeeds; the only post-unlock
failure that produces a 500 is a comment-post failure. -/
theorem c3_post_unlock_failures (env : LocksEnv) (id d : String) (lock : ProjectLock)
    (hid : ¬ id = "") (hdec : pathUnescape id = some d)
    (hun : env.unlockStore d = .ok (some lock))
    (hbase : ¬ lock.pull.baseRepo = Repo.zero) :
    (env.createComment lock.pull.baseRepo lock.pull.num
        (discardedComment lock.project.path lock.workspace) = none →
      (deleteLock env (some id)).status = 200) ∧
    (∀ msg, env.createComment lock.pull.baseRepo lock.pull.num
        (discardedComment lock.project.path lock.workspace) = some msg →
      (deleteLock env (some id)).status = 500) ∧
    (∀ e, env.wdTryLock lock.pull.baseRepo.fullName lock.workspace lock.pull.num = .error e →
      (LogLvl.error, "unable to obtain working dir lock when trying to delete old plans") ∈
        (deleteLock env (some id)).logs ∧
      (deleteLock env (some id)).deleteCalls = []) ∧
    (env.wdTryLock lock.pull.baseRepo.fullName lock.workspace lock.pull.num = .ok () →
      (LogLvl.error, "unable to delete workspace") ∈ (deleteLock env (some id)).logs ∧
      (deleteLock env (some id)).deleteCalls =
        [(lock.pull.baseRepo, lock.pull, lock.workspace)]) := by
  refine ⟨?_, ?_, ?_, ?_⟩
  · intro hcc
    rcases hwd : env.wdTryLock lock.pull.baseRepo.fullName lock.workspace lock.pull.num
        with e | u <;>
      simp [deleteLock, hid, hdec, hun, hbase, hwd, hcc]
  · intro msg hcc
    rcases hwd : env.wdTryLock lock.pull.baseRepo.fullName lock.workspace lock.pull.num
        with e | u <;>
      simp [deleteLock, hid, hdec, hun, hbase, hwd, hcc]
  · intro e hwd
    rcases hcc : env.createComment lock.pull.baseRepo lock.pull.num
        (discardedComment lock.project.path lock.workspace) with _ | msg <;>
      simp [deleteLock, hid, hdec, hun, hbase, hwd, hcc]
  · intro hwd
    rcases hcc : env.createComment lock.pull.baseRepo lock.pull.num
        (discardedComment lock.project.path lock.workspace) with _ | msg <;>
      simp [deleteLock, hid, hdec, hun, hbase, hwd, hcc]

/-- Witness for c3_post_unlock_failures: with a failing working-dir
locker and a succeeding comment client the deletion still responds 200
and the failure is logged at error level. -/
theorem c3_post_unlock_failures_witness :
    (deleteLock wdFailLocksEnv (some "lockid")).status = 200 ∧
    (LogLvl.error, "unable to obtain working dir lock when trying to delete old plans") ∈
      (deleteLock wdFailLocksEnv (some "lockid")).logs :=
  ⟨(c3_post_unlock_failures wdFailLocksEnv "lockid" "lockid" sampleLock (by decide)
      (by decide) rfl (by decide)).1 rfl,
   ((c3_post_unlock_failures wdFailLocksEnv "lockid" "lockid" sampleLock (by decide)
      (by decide) rfl (by decide)).2.2.1 "working dir already locked" rfl).1⟩

/-- Claim C4: deleting a lock whose pull lacks base-repository identity
performs no working-dir lock acquisition, no workspace deletion and no
comment post, and responds 200. -/
theorem c4_zero_base_repo (env : LocksEnv) (id d : String) (lock : ProjectLock)
    (hid : ¬ id = "") (hdec : pathUnescape id = some d)
    (hun : env.unlockStore d = .ok (some lock))
    (hbase : lock.pull.baseRepo = Repo.zero) :
    (deleteLock env (some id)).status = 200 ∧
    (deleteLock env (some id)).wdLockCalls = [] ∧
    (deleteLock env (some id)).deleteCalls = [] ∧
    (deleteLock env (some id)).comments = [] := by
  simp [deleteLock, hid, hdec, hun, hbase]

/-- Witness for c4_zero_base_repo at a concrete legacy lock. -/
theorem c4_zero_base_repo_witness :
    (deleteLock zeroBaseLocksEnv (some "oldlock")).status = 200 ∧
    (deleteLock zeroBaseLocksEnv (some "oldlock")).wdLockCalls = [] ∧
    (deleteLock zeroBaseLocksEnv (some "oldlock")).deleteCalls = [] ∧
    (deleteLock zeroBaseLocksEnv (some "oldlock")).comments = [] :=
  c4_zero_base_repo zeroBaseLocksEnv "oldlock" "oldlock" zeroBaseLock (by decide)
    (by decide) rfl (by decide)

/-- Claim C5 counterexample: a stored lock whose repository full name
contains no slash decodes and is found, yet the claimed 200 rendering
never happens: the handler terminates without writing a response. -/
theorem c5_counterexample :
    queryUnescape "x" = some "x" ∧
    noSlashLocksEnv.getLockStore "x" = .ok (some noSlashLock) ∧
    (getLock noSlashLocksEnv (some "x")).response = none := by
  refine ⟨by decide, rfl, by decide⟩

/-- Claim C5 (amended): GetLock responds 400 without consulting the
store on an undecodable id, 500 on a store error, 404 on an absent
lock, and 200 rendering the lock detail when the full repository name
splits into at least two slash-separated pieces (with no slash the
handler aborts abnormally instead, see c9); DeleteLock likewise
responds 400 without calling Unlock on an undecodable id. -/
theorem c5_lock_route_statuses :
    (∀ env id, queryUnescape id = none →
      getLock env (some id) = { response := some (.code 400), queried := [] }) ∧
    (∀ env id d msg, queryUnescape id = some d → env.getLockStore d = .error msg →
      getLock env (some id) = { response := some (.code 500), queried := [d] }) ∧
    (∀ env id d, queryUnescape id = some d → env.getLockStore d = .ok none →
      getLock env (some id) = { response := some (.code 404), queried := [d] }) ∧
    (∀ env id d lock a b rest, queryUnescape id = some d →
      env.getLockStore d = .ok (some lock) →
      splitOnChar '/' lock.project.repoFullName.data = a :: b :: rest →
      getLock env (some id) =
        { response := some (.page (lockViewData id d lock a b env.atlantisVersion)),
          queried := [d] }) ∧
    (∀ env id, ¬ id = "" → pathUnescape id = none →
      (deleteLock env (some id)).status = 400 ∧
      (deleteLock env (some id)).unlockCalls = []) := by
  refine ⟨?_, ?_, ?_, ?_, ?_⟩
  · intro env id hdec
    simp [getLock, hdec]
  · intro env id d msg hdec hst
    simp [getLock, hdec, hst]
  · intro env id d hdec hst
    simp [getLock, hdec, hst]
  · intro env id d lock a b rest hdec hst hsp
    simp [getLock, lockViewData, hdec, hst, hsp]
  · intro env id hid hdec
    simp [deleteLock, hid, hdec]

/-- Witness for c5_lock_route_statuses: the 404 branch at a concrete
empty store, and the 200 branch at a concrete stored lock. -/
theorem c5_lock_route_statuses_witness :
    getLock happyLocksEnv (some "abc") = { response := some (.code 404), queried := ["abc"] } ∧
    getLock slashLocksEnv (some "abc") =
      { response := some (.page
          (lockViewData "abc" "abc" sampleLock "octo".data "infra".data "0.4.0")),
        queried := ["abc"] } :=
  ⟨c5_lock_route_statuses.2.2.1 happyLocksEnv "abc" "abc" (by decide) rfl,
   c5_lock_route_statuses.2.2.2.1 slashLocksEnv "abc" "abc" sampleLock
     "octo".data "infra".data [] (by decide) rfl (by decide)⟩

/-- Claim C9: when the repository full name of the stored lock contains no
slash, GetLock selects the 200 path but terminates abnormally at the
out-of-range index instead of writing any response. -/
theorem c9_no_slash_aborts (env : LocksEnv) (id d : String) (lock : ProjectLock)
    (hdec : queryUnescape id = some d)
    (hstore : env.getLockStore d = .ok (some lock))
    (hnos : '/' ∉ lock.project.repoFullName.data) :
    (getLock env (some id)).response = none ∧
    (getLock env (some id)).queried = [d] := by
  have hsplit := splitOnChar_not_mem '/' lock.project.repoFullName.data hnos
  constructor <;> simp [getLock, hdec, hstore, hsplit]

/-- Witness for c9_no_slash_aborts at the concrete no-slash lock. -/
theorem c9_no_slash_aborts_witness :
    (getLock noSlashLocksEnv (some "y")).response = none ∧
    (getLock noSlashLocksEnv (some "y")).queried = ["y"] :=
  c9_no_slash_aborts noSlashLocksEnv "y" "y" noSlashLock (by decide) rfl (by decide)

/-- Claim C10: GetLock decodes the id with query unescaping and
DeleteLock with path unescaping, so an id containing a plus character
decodes to different lock keys on the two routes: the GET route
consults the store at the plus-to-space key while the DELETE route
unlocks the key with the plus intact. -/
theorem c10_decoders_disagree (s p q : String)
    (hplus : '+' ∈ s.data)
    (hpath : pathUnescape s = some p) (hquery : queryUnescape s = some q) :
    q ≠ p ∧
    (∀ env : LocksEnv, (getLock env (some s)).queried = [q]) ∧
    (∀ env : LocksEnv, (deleteLock env (some s)).unlockCalls = [p]) := by
  have hne := unescape_plus_ne s p q hplus hpath hquery
  have hsne : ¬ s = "" := by
    intro h
    subst h
    simp at hplus
  exact ⟨hne, fun env => getLock_queried env s q hquery,
    fun env => deleteLock_unlockCalls env s p hsne hpath⟩

/-- Witness for c10_decoders_disagree at the id a+b: GET decodes it to
the key with a space, DELETE to the key with the plus. -/
theorem c10_decoders_disagree_witness :
    ("a b" : String) ≠ "a+b" ∧
    (∀ env : LocksEnv, (getLock env (some "a+b")).queried = ["a b"]) ∧
    (∀ env : LocksEnv, (deleteLock env (some "a+b")).unlockCalls = ["a+b"]) :=
  c10_decoders_disagree "a+b" "a+b" "a b" (by decide) (by decide) (by decide)

/-! ## Lemmas about the command runner -/

/-- validateCtxAndComment either passes with an empty trace, or fails
posting exactly the fork comment or exactly the closed-pull comment. -/
theorem validate_cases (env : RunnerEnv) (ctx : CommandContext) :
    validateCtxAndComment env ctx = ([], true) ∨
    validateCtxAndComment env ctx =
      ([.logE .info "command was run on a fork pull request which is disallowed",
        .comment ctx.baseRepo ctx.pull.num (.forkDisallowed env.allowForkPRsFlag)], false) ∨
    validateCtxAndComment env ctx =
      ([.logE .info "command was run on closed pull request",
        .comment ctx.baseRepo ctx.pull.num .closedPull], false) := by
  unfold validateCtxAndComment
  by_cases h1 : env.allowForkPRs = false ∧ ctx.headRepo.owner ≠ ctx.baseRepo.owner
  · rw [if_pos h1]
    right; left; rfl
  · rw [if_neg h1]
    by_cases h2 : ctx.pull.state ≠ .opened
    · rw [if_pos h2]
      right; right; rfl
    · rw [if_neg h2]
      left; rfl

/-- A passing validation leaves no trace and returns true. -/
theorem validate_pass (env : RunnerEnv) (ctx : CommandContext)
    (h : validationPasses env ctx) : validateCtxAndComment env ctx = ([], true) := by
  obtain ⟨h1, h2⟩ := h
  have ha : ¬ (env.allowForkPRs = false ∧ ctx.headRepo.owner ≠ ctx.baseRepo.owner) := by
    rcases h1 with h1 | h1
    · rw [h1]
      simp
    · intro hcon
      exact hcon.2 h1
  have hb : ¬ ctx.pull.state ≠ .opened := by simp [h2]
  unfold validateCtxAndComment
  rw [if_neg ha, if_neg hb]

/-- A failing validation returns false. -/
theorem validate_fails_snd (env : RunnerEnv) (ctx : CommandContext)
    (h : validationFails env ctx) : (validateCtxAndComment env ctx).2 = false := by
  unfold validateCtxAndComment
  by_cases h1 : env.allowForkPRs = false ∧ ctx.headRepo.owner ≠ ctx.baseRepo.owner
  · rw [if_pos h1]
  · rw [if_neg h1]
    have h2 : ctx.pull.state ≠ .opened := by
      rcases h with h | h
      · exact absurd h h1
      · exact h
    rw [if_pos h2]

/-- updatePull with a non-panicking aggregate status updater posts
exactly the one rendered comment, records the one aggregate status
update, and returns normally. -/
theorem updatePull_spec_returned (env : RunnerEnv) (ctx : CommandContext)
    (info : CmdInfo) (res : CommandResult) (e : Option String)
    (h : env.updateProjectResult info.name res = .returned e) :
    (updatePull env ctx info res).2 = none ∧
    commentsOf (updatePull env ctx info res).1 =
      [(ctx.baseRepo, ctx.pull.num, .rendered res info.name info.isVerbose info.isAutoplan)] ∧
    statusResultsOf (updatePull env ctx info res).1 = [(info.name, res)] ∧
    statusesOf (updatePull env ctx info res).1 = [] ∧
    executedOf (updatePull env ctx info res).1 = [] := by
  rcases herr : res.error with _ | msg <;> rcases e with _ | msg2 <;>
    by_cases hf : res.failure = "" <;>
    simp [updatePull, h, herr, hf, warnIf, commentsOf, statusResultsOf, statusesOf, executedOf]

/-- updatePull with a panicking aggregate status updater emits no
externally visible event apart from logs, and re-raises the panic to
the recovery boundary. -/
theorem updatePull_spec_panicked (env : RunnerEnv) (ctx : CommandContext)
    (info : CmdInfo) (res : CommandResult) (p : String)
    (h : env.updateProjectResult info.name res = .panicked p) :
    (updatePull env ctx info res).2 = some p ∧
    commentsOf (updatePull env ctx info res).1 = [] ∧
    statusResultsOf (updatePull env ctx info res).1 = [] ∧
    statusesOf (updatePull env ctx info res).1 = [] ∧
    executedOf (updatePull env ctx info res).1 = [] := by
  rcases herr : res.error with _ | msg <;>
    by_cases hf : res.failure = "" <;>
    simp [updatePull, h, herr, hf, commentsOf, statusResultsOf, statusesOf, executedOf]

/-- With a never-panicking plan runner, the loop executes every unit in
builder order and collects one result per unit in that order. -/
theorem planAll_spec (env : RunnerEnv) (f : ProjectCommand → ProjectCommandResult)
    (h : ∀ c, env.runPlan c = .returned (f c)) :
    ∀ cmds, planAll env cmds =
      (cmds.map Event.execPlan,
       .returned (cmds.map fun c => unitResult (f c) c.repoRelDir c.workspace)) := by
  intro cmds
  induction cmds with
  | nil => rfl
  | cons c rest ih => simp [planAll, h c, ih]

/-- The execution loop emits only execution events. -/
theorem planAll_execOnly (env : RunnerEnv) :
    ∀ cmds, ∀ e ∈ (planAll env cmds).1, ∃ u, e = Event.execPlan u := by
  intro cmds
  induction cmds with
  | nil =>
    intro e he
    simp [planAll] at he
  | cons c rest ih =>
    intro e he
    rcases h1 : env.runPlan c with p | r
    · simp [planAll, h1] at he
    · rcases h2 : planAll env rest with ⟨tr, pr⟩
      rw [h2] at ih
      rcases pr with p | rs
      · simp [planAll, h1, h2] at he
        rcases he with rfl | he
        · exact ⟨c, rfl⟩
        · exact ih e he
      · simp [planAll, h1, h2] at he
        rcases he with rfl | he
        · exact ⟨c, rfl⟩
        · exact ih e he

/-- The execution loop posts no comment. -/
theorem planAll_comments (env : RunnerEnv) (cmds : List ProjectCommand) :
    commentsOf (planAll env cmds).1 = [] := by
  rw [commentsOf, List.filterMap_eq_nil]
  intro a ha
  obtain ⟨u, rfl⟩ := planAll_execOnly env cmds a ha
  rfl

/-- The execution loop updates no commit status. -/
theorem planAll_statuses (env : RunnerEnv) (cmds : List ProjectCommand) :
    statusesOf (planAll env cmds).1 = [] := by
  rw [statusesOf, List.filterMap_eq_nil]
  intro a ha
  obtain ⟨u, rfl⟩ := planAll_execOnly env cmds a ha
  rfl

/-- The execution loop records no aggregate status update. -/
theorem planAll_statusResults (env : RunnerEnv) (cmds : List ProjectCommand) :
    statusResultsOf (planAll env cmds).1 = [] := by
  rw [statusResultsOf, List.filterMap_eq_nil]
  intro a ha
  obtain ⟨u, rfl⟩ := planAll_execOnly env cmds a ha
  rfl

/-- The execution loop emits no log event. -/
theorem planAll_logs (env : RunnerEnv) (cmds : List ProjectCommand) :
    logsOf (planAll env cmds).1 = [] := by
  rw [logsOf, List.filterMap_eq_nil]
  intro a ha
  obtain ⟨u, rfl⟩ := planAll_execOnly env cmds a ha
  rfl

/-- Comment extraction distributes over trace concatenation. -/
theorem commentsOf_append (a b : Trace) :
    commentsOf (a ++ b) = commentsOf a ++ commentsOf b := by
  simp [commentsOf]

/-- Status extraction distributes over trace concatenation. -/
theorem statusesOf_append (a b : Trace) :
    statusesOf (a ++ b) = statusesOf a ++ statusesOf b := by
  simp [statusesOf]

/-- Aggregate-status extraction distributes over trace concatenation. -/
theorem statusResultsOf_append (a b : Trace) :
    statusResultsOf (a ++ b) = statusResultsOf a ++ statusResultsOf b := by
  simp [statusResultsOf]

/-- Execution extraction distributes over trace concatenation. -/
theorem executedOf_append (a b : Trace) :
    executedOf (a ++ b) = executedOf a ++ executedOf b := by
  simp [executedOf]

/-- The swallowed status-update warning contains no comment. -/
theorem commentsOf_warnIf (e : Option String) : commentsOf (warnIf e) = [] := by
  rcases e with _ | msg <;> rfl

/-- A leading status event drops out of comment extraction. -/
theorem commentsOf_cons_status (s : CommitState) (n : CommandName) (tr : Trace) :
    commentsOf (Event.status s n :: tr) = commentsOf tr := by
  simp [commentsOf]

/-- A leading log event drops out of comment extraction. -/
theorem commentsOf_cons_log (l : LogLvl) (m : String) (tr : Trace) :
    commentsOf (Event.logE l m :: tr) = commentsOf tr := by
  simp [commentsOf]

/-- A leading plan-execution event drops out of comment extraction. -/
theorem commentsOf_cons_execPlan (c : ProjectCommand) (tr : Trace) :
    commentsOf (Event.execPlan c :: tr) = commentsOf tr := by
  simp [commentsOf]

/-- A leading apply-execution event drops out of comment extraction. -/
theorem commentsOf_cons_execApply (c : ProjectCommand) (tr : Trace) :
    commentsOf (Event.execApply c :: tr) = commentsOf tr := by
  simp [commentsOf]

/-- A leading swallowed warning drops out of comment extraction. -/
theorem commentsOf_warnIf_append (e : Option String) (tr : Trace) :
    commentsOf (warnIf e ++ tr) = commentsOf tr := by
  rcases e with _ | msg <;> simp [warnIf, commentsOf]

/-- The wrapped part of RunAutoplanCommand posts exactly one comment
when it terminates normally, and none at all when it panics. -/
theorem autoplanBody_comments (env : RunnerEnv) (ctx : CommandContext) :
    ((autoplanBody env ctx).2 = none → (commentsOf (autoplanBody env ctx).1).length = 1) ∧
    (∀ p, (autoplanBody env ctx).2 = some p → commentsOf (autoplanBody env ctx).1 = []) := by
  rcases validate_cases env ctx with hv | hv | hv
  case inr.inl | inr.inr =>
    constructor
    · intro _
      simp [autoplanBody, hv, commentsOf]
    · intro p hp
      simp [autoplanBody, hv] at hp
  case inl =>
  rcases hu : env.update ctx.baseRepo ctx.pull .pending .plan with p | e
  · constructor
    · intro h
      simp [autoplanBody, hv, hu] at h
    · intro p2 _
      simp [autoplanBody, hv, hu, commentsOf]
  · rcases hb : env.buildAutoplanCommands ctx with p | r
    · constructor
      · intro h
        simp [autoplanBody, hv, hu, hb] at h
      · intro p2 _
        simp [autoplanBody, hv, hu, hb]
        rw [commentsOf_cons_status, commentsOf_warnIf]
    · rcases r with err | cmds
      · rcases hup : env.updateProjectResult autoplanInfo.name
            (errorResult err) with p2 | e2
        · obtain ⟨hu1, hu2, _, _, _⟩ := updatePull_spec_panicked env ctx autoplanInfo
            (errorResult err) p2 hup
          constructor
          · intro h
            simp [autoplanBody, hv, hu, hb, hu1] at h
          · intro p3 _
            simp [autoplanBody, hv, hu, hb]
            rw [commentsOf_cons_status, commentsOf_warnIf_append, hu2]
        · obtain ⟨hu1, hu2, _, _, _⟩ := updatePull_spec_returned env ctx autoplanInfo
            (errorResult err) e2 hup
          constructor
          · intro _
            simp [autoplanBody, hv, hu, hb]
            rw [commentsOf_cons_status, commentsOf_warnIf_append, hu2]
            rfl
          · intro p3 hp
            simp [autoplanBody, hv, hu, hb, hu1] at hp
      · rcases hpa : planAll env cmds with ⟨tr2, pr⟩
        have htr2 : commentsOf tr2 = [] := by
          have hq := planAll_comments env cmds
          rw [hpa] at hq
          exact hq
        rcases pr with p2 | results
        · constructor
          · intro h
            simp [autoplanBody, hv, hu, hb, hpa] at h
          · intro p3 _
            simp [autoplanBody, hv, hu, hb, hpa]
            rw [commentsOf_cons_status, commentsOf_warnIf_append, htr2]
        · rcases hup : env.updateProjectResult autoplanInfo.name
              (okResults results) with p2 | e2
          · obtain ⟨hu1, hu2, _, _, _⟩ := updatePull_spec_panicked env ctx autoplanInfo
              (okResults results) p2 hup
            constructor
            · intro h
              simp [autoplanBody, hv, hu, hb, hpa, hu1] at h
            · intro p3 _
              simp [autoplanBody, hv, hu, hb, hpa]
              rw [commentsOf_cons_status, commentsOf_warnIf_append, commentsOf_append,
                htr2, hu2]
              rfl
          · obtain ⟨hu1, hu2, _, _, _⟩ := updatePull_spec_returned env ctx autoplanInfo
              (okResults results) e2 hup
            constructor
            · intro _
              simp [autoplanBody, hv, hu, hb, hpa]
              rw [commentsOf_cons_status, commentsOf_warnIf_append, commentsOf_append,
                htr2, hu2]
              rfl
            · intro p3 hp
              simp [autoplanBody, hv, hu, hb, hpa, hu1] at hp

/-- The recovery boundary passes a normal outcome through and converts
a panic into one panic comment plus one error log, re-raising nothing. -/
theorem logPanics_cases (ctx : CommandContext) (b : Trace × Option String) :
    (b.2 = none → logPanics ctx b = (b.1, none)) ∧
    (∀ p, b.2 = some p → logPanics ctx b =
      (b.1 ++ [.comment ctx.baseRepo ctx.pull.num (.panicComment p recoveryStack),
               .logE .error "PANIC"], none)) := by
  rcases b with ⟨tr, _ | p⟩
  · constructor
    · intro _
      rfl
    · intro p hp
      simp at hp
  · constructor
    · intro h
      simp at h
    · intro p2 hp
      obtain rfl : p = p2 := Option.some.inj hp
      rfl

/-- The wrapped part of RunCommentCommand posts no comment when it
panics, at most one comment when it terminates normally, and exactly
one when moreover the command name is plan or apply. -/
theorem commentBody_comments (env : RunnerEnv) (ctx : CommandContext) (cmd : CommentCommand) :
    (∀ p, (commentBody env ctx cmd).2 = some p → commentsOf (commentBody env ctx cmd).1 = []) ∧
    ((commentBody env ctx cmd).2 = none → (commentsOf (commentBody env ctx cmd).1).length ≤ 1) ∧
    ((commentBody env ctx cmd).2 = none → cmd.name ≠ .otherName →
      (commentsOf (commentBody env ctx cmd).1).length = 1) := by
  rcases validate_cases env ctx with hv | hv | hv
  case inr.inl | inr.inr =>
    refine ⟨?_, ?_, ?_⟩
    · intro p hp
      simp [commentBody, hv] at hp
    · intro _
      simp [commentBody, hv, commentsOf]
    · intro _ _
      simp [commentBody, hv, commentsOf]
  case inl =>
  rcases hu : env.update ctx.baseRepo ctx.pull .pending cmd.name with p | e
  · refine ⟨?_, ?_, ?_⟩
    · intro p2 _
      simp [commentBody, hv, hu, commentsOf]
    · intro h
      simp [commentBody, hv, hu] at h
    · intro h _
      simp [commentBody, hv, hu] at h
  · rcases hn : cmd.name with _ | _ | _
    · rw [hn] at hu
      rcases hbp : env.buildPlanCommand ctx cmd with p | r
      · refine ⟨?_, ?_, ?_⟩
        · intro p2 _
          simp [commentBody, hv, hu, hn, hbp]
          rw [commentsOf_cons_status, commentsOf_warnIf]
        · intro h
          simp [commentBody, hv, hu, hn, hbp] at h
        · intro h _
          simp [commentBody, hv, hu, hn, hbp] at h
      · rcases r with err | pc
        · rcases hup : env.updateProjectResult (commentInfo cmd).name
              (errorResult err) with p2 | e2
          · obtain ⟨hu1, hu2, _, _, _⟩ := updatePull_spec_panicked env ctx (commentInfo cmd)
                (errorResult err) p2 hup
            refine ⟨?_, ?_, ?_⟩
            · intro p3 _
              simp [commentBody, hv, hu, hn, hbp]
              rw [commentsOf_cons_status, commentsOf_warnIf_append, hu2]
            · intro h
              simp [commentBody, hv, hu, hn, hbp, hu1] at h
            · intro h _
              simp [commentBody, hv, hu, hn, hbp, hu1] at h
          · obtain ⟨hu1, hu2, _, _, _⟩ := updatePull_spec_returned env ctx (commentInfo cmd)
                (errorResult err) e2 hup
            refine ⟨?_, ?_, ?_⟩
            · intro p3 hp
              simp [commentBody, hv, hu, hn, hbp, hu1] at hp
            · intro _
              simp [commentBody, hv, hu, hn, hbp]
              rw [commentsOf_cons_status, commentsOf_warnIf_append, hu2]
              simp
            · intro _ _
              simp [commentBody, hv, hu, hn, hbp]
              rw [commentsOf_cons_status, commentsOf_warnIf_append, hu2]
              rfl
        · rcases hrp : env.runPlan pc with p | r2
          · refine ⟨?_, ?_, ?_⟩
            · intro p2 _
              simp [commentBody, hv, hu, hn, hbp, hrp]
              rw [commentsOf_cons_status, commentsOf_warnIf]
            · intro h
              simp [commentBody, hv, hu, hn, hbp, hrp] at h
            · intro h _
              simp [commentBody, hv, hu, hn, hbp, hrp] at h
          · rcases hup : env.updateProjectResult (commentInfo cmd).name
                (okResults [unitResult r2 cmd.repoRelDir cmd.workspace]) with p2 | e2
            · obtain ⟨hu1, hu2, _, _, _⟩ := updatePull_spec_panicked env ctx (commentInfo cmd)
                  (okResults [unitResult r2 cmd.repoRelDir cmd.workspace]) p2 hup
              refine ⟨?_, ?_, ?_⟩
              · intro p3 _
                simp [commentBody, hv, hu, hn, hbp, hrp]
                rw [commentsOf_cons_status, commentsOf_warnIf_append,
                  commentsOf_cons_execPlan, hu2]
              · intro h
                simp [commentBody, hv, hu, hn, hbp, hrp, hu1] at h
              · intro h _
                simp [commentBody, hv, hu, hn, hbp, hrp, hu1] at h
            · obtain ⟨hu1, hu2, _, _, _⟩ := updatePull_spec_returned env ctx (commentInfo cmd)
                  (okResults [unitResult r2 cmd.repoRelDir cmd.workspace]) e2 hup
              refine ⟨?_, ?_, ?_⟩
              · intro p3 hp
                simp [commentBody, hv, hu, hn, hbp, hrp, hu1] at hp
              · intro _
                simp [commentBody, hv, hu, hn, hbp, hrp]
                rw [commentsOf_cons_status, commentsOf_warnIf_append,
                  commentsOf_cons_execPlan, hu2]
                simp
              · intro _ _
                simp [commentBody, hv, hu, hn, hbp, hrp]
                rw [commentsOf_cons_status, commentsOf_warnIf_append,
                  commentsOf_cons_execPlan, hu2]
                rfl
    · rw [hn] at hu
      rcases hbp : env.buildApplyCommand ctx cmd with p | r
      · refine ⟨?_, ?_, ?_⟩
        · intro p2 _
          simp [commentBody, hv, hu, hn, hbp]
          rw [commentsOf_cons_status, commentsOf_warnIf]
        · intro h
          simp [commentBody, hv, hu, hn, hbp] at h
        · intro h _
          simp [commentBody, hv, hu, hn, hbp] at h
      · rcases r with err | pc
        · rcases hup : env.updateProjectResult (commentInfo cmd).name
              (errorResult err) with p2 | e2
          · obtain ⟨hu1, hu2, _, _, _⟩ := updatePull_spec_panicked env ctx (commentInfo cmd)
                (errorResult err) p2 hup
            refine ⟨?_, ?_, ?_⟩
            · intro p3 _
              simp [commentBody, hv, hu, hn, hbp]
              rw [commentsOf_cons_status, commentsOf_warnIf_append, hu2]
            · intro h
              simp [commentBody, hv, hu, hn, hbp, hu1] at h
            · intro h _
              simp [commentBody, hv, hu, hn, hbp, hu1] at h
          · obtain ⟨hu1, hu2, _, _, _⟩ := updatePull_spec_returned env ctx (commentInfo cmd)
                (errorResult err) e2 hup
            refine ⟨?_, ?_, ?_⟩
            · intro p3 hp
              simp [commentBody, hv, hu, hn, hbp, hu1] at hp
            · intro _
              simp [commentBody, hv, hu, hn, hbp]
              rw [commentsOf_cons_status, commentsOf_warnIf_append, hu2]
              simp
            · intro _ _
              simp [commentBody, hv, hu, hn, hbp]
              rw [commentsOf_cons_status, commentsOf_warnIf_append, hu2]
              rfl
        · rcases hrp : env.runApply pc with p | r2
          · refine ⟨?_, ?_, ?_⟩
            · intro p2 _
              simp [commentBody, hv, hu, hn, hbp, hrp]
              rw [commentsOf_cons_status, commentsOf_warnIf]
            · intro h
              simp [commentBody, hv, hu, hn, hbp, hrp] at h
            · intro h _
              simp [commentBody, hv, hu, hn, hbp, hrp] at h
          · rcases hup : env.updateProjectResult (commentInfo cmd).name
                (okResults [unitResult r2 cmd.repoRelDir cmd.workspace]) with p2 | e2
            · obtain ⟨hu1, hu2, _, _, _⟩ := updatePull_spec_panicked env ctx (commentInfo cmd)
                  (okResults [unitResult r2 cmd.repoRelDir cmd.workspace]) p2 hup
              refine ⟨?_, ?_, ?_⟩
              · intro p3 _
                simp [commentBody, hv, hu, hn, hbp, hrp]
                rw [commentsOf_cons_status, commentsOf_warnIf_append,
                  commentsOf_cons_execApply, hu2]
              · intro h
                simp [commentBody, hv, hu, hn, hbp, hrp, hu1] at h
              · intro h _
                simp [commentBody, hv, hu, hn, hbp, hrp, hu1] at h
            · obtain ⟨hu1, hu2, _, _, _⟩ := updatePull_spec_returned env ctx (commentInfo cmd)
                  (okResults [unitResult r2 cmd.repoRelDir cmd.workspace]) e2 hup
              refine ⟨?_, ?_, ?_⟩
              · intro p3 hp
                simp [commentBody, hv, hu, hn, hbp, hrp, hu1] at hp
              · intro _
                simp [commentBody, hv, hu, hn, hbp, hrp]
                rw [commentsOf_cons_status, commentsOf_warnIf_append,
                  commentsOf_cons_execApply, hu2]
                simp
              · intro _ _
                simp [commentBody, hv, hu, hn, hbp, hrp]
                rw [commentsOf_cons_status, commentsOf_warnIf_append,
                  commentsOf_cons_execApply, hu2]
                rfl
    · rw [hn] at hu
      refine ⟨?_, ?_, ?_⟩
      · intro p2 hp
        simp [commentBody, hv, hu, hn] at hp
      · intro _
        simp [commentBody, hv, hu, hn]
        rw [commentsOf_cons_status, commentsOf_warnIf_append]
        simp [commentsOf]
      · intro _ hname
        exact absurd rfl hname

/-- The swallowed status-update warning contains no pending status. -/
theorem statusesOf_warnIf (e : Option String) : statusesOf (warnIf e) = [] := by
  rcases e with _ | msg <;> rfl

/-- The swallowed status-update warning contains no aggregate status. -/
theorem statusResultsOf_warnIf (e : Option String) : statusResultsOf (warnIf e) = [] := by
  rcases e with _ | msg <;> rfl

/-- The swallowed status-update warning contains no execution. -/
theorem executedOf_warnIf (e : Option String) : executedOf (warnIf e) = [] := by
  rcases e with _ | msg <;> rfl

/-- Execution extraction recovers the unit list from its event image. -/
theorem executedOf_execPlans (cmds : List ProjectCommand) :
    executedOf (cmds.map Event.execPlan) = cmds := by
  induction cmds with
  | nil => rfl
  | cons c r ih =>
    simp only [List.map_cons, executedOf, List.filterMap_cons] at ih ⊢
    rw [ih]

/-! ## Claims about the command runner -/

/-- Claim C1 counterexample: a panic raised by the GitHub pull getter
during pull resolution of RunCommentCommand is raised before the
deferred recovery boundary is installed: it escapes the invocation and
no comment is posted, contrary to the claim that any panic during
steps 2 to 7 is caught and converted into one comment. -/
theorem c1_counterexample :
    runCommentCommand getterPanicsEnv sampleRepo none "alice" 5 samplePlanCmd =
      ([], some "boom") := by
  decide

/-- Claim C1 (amended): the recovery boundary catches every panic of
the wrapped pipeline part (validation, pending status, build, execute,
report) in both entry points, converting it into exactly one comment
carrying the panic payload and the non-empty stack plus one error log,
re-raising nothing; but in RunCommentCommand the boundary is installed
only after pull resolution, so the wrapped part excludes resolution. -/
theorem c1_panic_recovery :
    (∀ env baseRepo headRepo pull user,
      (runAutoplanCommand env baseRepo headRepo pull user).2 = none) ∧
    (∀ env baseRepo headRepo pull (user : String) tr p,
      autoplanBody env (mkCtx user pull headRepo baseRepo) = (tr, some p) →
      runAutoplanCommand env baseRepo headRepo pull user =
        (tr ++ [.comment baseRepo pull.num (.panicComment p recoveryStack),
                .logE .error "PANIC"], none) ∧
      commentsOf tr = [] ∧ recoveryStack ≠ "") ∧
    (∀ env baseRepo maybeHeadRepo (user : String) (pullNum : Int) cmd pull headRepo,
      resolveCommentPull env baseRepo maybeHeadRepo pullNum = .returned (.ok (pull, headRepo)) →
      (runCommentCommand env baseRepo maybeHeadRepo user pullNum cmd).2 = none) ∧
    (∀ env baseRepo maybeHeadRepo (user : String) (pullNum : Int) cmd pull headRepo tr p,
      resolveCommentPull env baseRepo maybeHeadRepo pullNum = .returned (.ok (pull, headRepo)) →
      commentBody env (mkCtx user pull headRepo baseRepo) cmd = (tr, some p) →
      runCommentCommand env baseRepo maybeHeadRepo user pullNum cmd =
        (tr ++ [.comment baseRepo pull.num (.panicComment p recoveryStack),
                .logE .error "PANIC"], none) ∧
      commentsOf tr = []) := by
  refine ⟨?_, ?_, ?_, ?_⟩
  · intro env baseRepo headRepo pull user
    rcases hb : autoplanBody env (mkCtx user pull headRepo baseRepo) with ⟨tr, _ | p⟩
    · simp [runAutoplanCommand, hb, logPanics]
    · simp [runAutoplanCommand, hb, logPanics]
  · intro env baseRepo headRepo pull user tr p hb
    obtain ⟨_, hc2⟩ := autoplanBody_comments env (mkCtx user pull headRepo baseRepo)
    rw [hb] at hc2
    refine ⟨?_, hc2 p rfl, by decide⟩
    simp only [runAutoplanCommand]
    rw [hb]
    simp [logPanics, mkCtx]
  · intro env baseRepo maybeHeadRepo user pullNum cmd pull headRepo hres
    rcases hb : commentBody env (mkCtx user pull headRepo baseRepo) cmd with ⟨tr, _ | p⟩
    · simp [runCommentCommand, hres, hb, logPanics]
    · simp [runCommentCommand, hres, hb, logPanics]
  · intro env baseRepo maybeHeadRepo user pullNum cmd pull headRepo tr p hres hb
    obtain ⟨hcb1, _, _⟩ := commentBody_comments env (mkCtx user pull headRepo baseRepo) cmd
    rw [hb] at hcb1
    refine ⟨?_, hcb1 p rfl⟩
    simp only [runCommentCommand, hres]
    rw [hb]
    simp [logPanics, mkCtx]

/-- Witness for c1_panic_recovery: a panicking autoplan builder yields
exactly the pending status followed by the panic comment and the error
log, with nothing re-raised. -/
theorem c1_panic_recovery_witness :
    runAutoplanCommand builderPanicsEnv sampleRepo sampleRepo samplePull "alice" =
      ([Event.status .pending .plan] ++
        [.comment sampleRepo 5 (.panicComment "builder exploded" recoveryStack),
         .logE .error "PANIC"], none) ∧
    commentsOf [Event.status .pending .plan] = [] ∧ recoveryStack ≠ "" :=
  c1_panic_recovery.2.1 builderPanicsEnv sampleRepo sampleRepo samplePull "alice"
    [Event.status .pending .plan] "builder exploded" (by decide)

/-- Claim C2 counterexample: a comment command whose name is neither
plan nor apply passes pull resolution and validation (the pending
status is posted), yet the invocation posts no comment at all,
contrary to the claim that no post-validation path posts zero. -/
theorem c2_counterexample :
    commentsOf (runCommentCommand happyRunnerEnv sampleRepo none "alice" 5 otherNameCmd).1 = [] ∧
    statusesOf (runCommentCommand happyRunnerEnv sampleRepo none "alice" 5 otherNameCmd).1 =
      [(.pending, .otherName)] ∧
    (runCommentCommand happyRunnerEnv sampleRepo none "alice" 5 otherNameCmd).2 = none := by
  refine ⟨by decide, by decide, by decide⟩

/-- Claim C2 (amended): every invocation posts at most one comment;
every RunAutoplanCommand invocation posts exactly one; and every
RunCommentCommand invocation that passes pull resolution posts exactly
one provided the command name is plan or apply — the unrecognized-name
path posts none. -/
theorem c2_comment_discipline :
    (∀ env baseRepo headRepo pull user,
      (commentsOf (runAutoplanCommand env baseRepo headRepo pull user).1).length = 1) ∧
    (∀ env baseRepo maybeHeadRepo (user : String) (pullNum : Int) cmd,
      (commentsOf (runCommentCommand env baseRepo maybeHeadRepo user pullNum cmd).1).length ≤ 1) ∧
    (∀ env baseRepo maybeHeadRepo (user : String) (pullNum : Int) cmd pull headRepo,
      resolveCommentPull env baseRepo maybeHeadRepo pullNum = .returned (.ok (pull, headRepo)) →
      cmd.name ≠ .otherName →
      (commentsOf (runCommentCommand env baseRepo maybeHeadRepo user pullNum cmd).1).length = 1) := by
  refine ⟨?_, ?_, ?_⟩
  · intro env baseRepo headRepo pull user
    obtain ⟨hc1, hc2⟩ := autoplanBody_comments env (mkCtx user pull headRepo baseRepo)
    rcases hb : autoplanBody env (mkCtx user pull headRepo baseRepo) with ⟨tr, _ | p⟩
    · rw [hb] at hc1
      simp [runAutoplanCommand, hb, logPanics]
      exact hc1 rfl
    · rw [hb] at hc2
      have h0 : commentsOf tr = [] := hc2 p rfl
      simp [runAutoplanCommand, hb, logPanics]
      rw [commentsOf_append, h0]
      rfl
  · intro env baseRepo maybeHeadRepo user pullNum cmd
    rcases hres : resolveCommentPull env baseRepo maybeHeadRepo pullNum with p | r
    · simp [runCommentCommand, hres, commentsOf]
    · rcases r with e | ⟨pull, headRepo⟩
      · simp [runCommentCommand, hres, commentsOf]
      · obtain ⟨hcb1, hcb2, _⟩ := commentBody_comments env (mkCtx user pull headRepo baseRepo) cmd
        rcases hb : commentBody env (mkCtx user pull headRepo baseRepo) cmd with ⟨tr, _ | p⟩
        · rw [hb] at hcb2
          simp [runCommentCommand, hres, hb, logPanics]
          exact hcb2 rfl
        · rw [hb] at hcb1
          have h0 : commentsOf tr = [] := hcb1 p rfl
          simp [runCommentCommand, hres, hb, logPanics]
          rw [commentsOf_append, h0]
          rfl
  · intro env baseRepo maybeHeadRepo user pullNum cmd pull headRepo hres hname
    obtain ⟨hcb1, _, hcb3⟩ := commentBody_comments env (mkCtx user pull headRepo baseRepo) cmd
    rcases hb : commentBody env (mkCtx user pull headRepo baseRepo) cmd with ⟨tr, _ | p⟩
    · rw [hb] at hcb3
      simp [runCommentCommand, hres, hb, logPanics]
      exact hcb3 rfl hname
    · rw [hb] at hcb1
      have h0 : commentsOf tr = [] := hcb1 p rfl
      simp [runCommentCommand, hres, hb, logPanics]
      rw [commentsOf_append, h0]
      rfl

/-- Witness for c2_comment_discipline: a plan comment command on the
all-succeeding environment posts exactly one comment. -/
theorem c2_comment_discipline_witness :
    (commentsOf (runCommentCommand happyRunnerEnv sampleRepo none "alice" 5
      samplePlanCmd).1).length = 1 :=
  c2_comment_discipline.2.2 happyRunnerEnv sampleRepo none "alice" 5 samplePlanCmd
    samplePull sampleRepo rfl (by decide)

/-- An empty trailing trace after a status event, stated for rewriting. -/
theorem commentsOf_status (s : CommitState) (n : CommandName) :
    commentsOf [Event.status s n] = [] := rfl

/-- Status events carry no aggregate status update. -/
theorem statusResultsOf_status (s : CommitState) (n : CommandName) :
    statusResultsOf [Event.status s n] = [] := rfl

/-- Status events carry no execution. -/
theorem executedOf_status (s : CommitState) (n : CommandName) :
    executedOf [Event.status s n] = [] := rfl

/-- Claim C6: an invocation whose context fails validation (disallowed
fork pull request, or pull not open) terminates after posting exactly
one explanatory comment, performs no commit-status update of any kind,
and logs the rejection at info level only. -/
theorem c6_validation_rejection :
    (∀ env baseRepo headRepo pull (user : String),
      validationFails env (mkCtx user pull headRepo baseRepo) →
      statusesOf (runAutoplanCommand env baseRepo headRepo pull user).1 = [] ∧
      statusResultsOf (runAutoplanCommand env baseRepo headRepo pull user).1 = [] ∧
      (∃ b, commentsOf (runAutoplanCommand env baseRepo headRepo pull user).1 =
          [(baseRepo, pull.num, b)] ∧
        (b = CommentBody.forkDisallowed env.allowForkPRsFlag ∨ b = CommentBody.closedPull)) ∧
      logsOf (runAutoplanCommand env baseRepo headRepo pull user).1 ≠ [] ∧
      (∀ le ∈ logsOf (runAutoplanCommand env baseRepo headRepo pull user).1,
        le.1 = LogLvl.info)) ∧
    (∀ env baseRepo maybeHeadRepo (user : String) (pullNum : Int) cmd pull headRepo,
      resolveCommentPull env baseRepo maybeHeadRepo pullNum = .returned (.ok (pull, headRepo)) →
      validationFails env (mkCtx user pull headRepo baseRepo) →
      statusesOf (runCommentCommand env baseRepo maybeHeadRepo user pullNum cmd).1 = [] ∧
      statusResultsOf (runCommentCommand env baseRepo maybeHeadRepo user pullNum cmd).1 = [] ∧
      (∃ b, commentsOf (runCommentCommand env baseRepo maybeHeadRepo user pullNum cmd).1 =
          [(baseRepo, pull.num, b)] ∧
        (b = CommentBody.forkDisallowed env.allowForkPRsFlag ∨ b = CommentBody.closedPull)) ∧
      logsOf (runCommentCommand env baseRepo maybeHeadRepo user pullNum cmd).1 ≠ [] ∧
      (∀ le ∈ logsOf (runCommentCommand env baseRepo maybeHeadRepo user pullNum cmd).1,
        le.1 = LogLvl.info)) := by
  constructor
  · intro env baseRepo headRepo pull user h
    have hsnd := validate_fails_snd env (mkCtx user pull headRepo baseRepo) h
    rcases validate_cases env (mkCtx user pull headRepo baseRepo) with hv | hv | hv
    · rw [hv] at hsnd
      simp at hsnd
    · have hrun : runAutoplanCommand env baseRepo headRepo pull user =
          ([.logE .info "command was run on a fork pull request which is disallowed",
            .comment baseRepo pull.num (.forkDisallowed env.allowForkPRsFlag)], none) := by
        simp only [runAutoplanCommand, autoplanBody]
        rw [hv]
        simp [logPanics, mkCtx]
      rw [hrun]
      refine ⟨rfl, rfl, ⟨.forkDisallowed env.allowForkPRsFlag, rfl, Or.inl rfl⟩, by simp [logsOf], ?_⟩
      intro le hle
      simp [logsOf] at hle
      rw [hle]
    · have hrun : runAutoplanCommand env baseRepo headRepo pull user =
          ([.logE .info "command was run on closed pull request",
            .comment baseRepo pull.num .closedPull], none) := by
        simp only [runAutoplanCommand, autoplanBody]
        rw [hv]
        simp [logPanics, mkCtx]
      rw [hrun]
      refine ⟨rfl, rfl, ⟨.closedPull, rfl, Or.inr rfl⟩, by simp [logsOf], ?_⟩
      intro le hle
      simp [logsOf] at hle
      rw [hle]
  · intro env baseRepo maybeHeadRepo user pullNum cmd pull headRepo hres h
    have hsnd := validate_fails_snd env (mkCtx user pull headRepo baseRepo) h
    rcases validate_cases env (mkCtx user pull headRepo baseRepo) with hv | hv | hv
    · rw [hv] at hsnd
      simp at hsnd
    · have hrun : runCommentCommand env baseRepo maybeHeadRepo user pullNum cmd =
          ([.logE .info "command was run on a fork pull request which is disallowed",
            .comment baseRepo pull.num (.forkDisallowed env.allowForkPRsFlag)], none) := by
        simp only [runCommentCommand, hres, commentBody]
        rw [hv]
        simp [logPanics, mkCtx]
      rw [hrun]
      refine ⟨rfl, rfl, ⟨.forkDisallowed env.allowForkPRsFlag, rfl, Or.inl rfl⟩, by simp [logsOf], ?_⟩
      intro le hle
      simp [logsOf] at hle
      rw [hle]
    · have hrun : runCommentCommand env baseRepo maybeHeadRepo user pullNum cmd =
          ([.logE .info "command was run on closed pull request",
            .comment baseRepo pull.num .closedPull], none) := by
        simp only [runCommentCommand, hres, commentBody]
        rw [hv]
        simp [logPanics, mkCtx]
      rw [hrun]
      refine ⟨rfl, rfl, ⟨.closedPull, rfl, Or.inr rfl⟩, by simp [logsOf], ?_⟩
      intro le hle
      simp [logsOf] at hle
      rw [hle]

/-- Witness for c6_validation_rejection: an autoplan on a closed pull
posts exactly the closed-pull comment, no statuses, one info log. -/
theorem c6_validation_rejection_witness :
    statusesOf (runAutoplanCommand happyRunnerEnv sampleRepo sampleRepo
      closedSamplePull "alice").1 = [] ∧
    statusResultsOf (runAutoplanCommand happyRunnerEnv sampleRepo sampleRepo
      closedSamplePull "alice").1 = [] ∧
    (∃ b, commentsOf (runAutoplanCommand happyRunnerEnv sampleRepo sampleRepo
        closedSamplePull "alice").1 = [(sampleRepo, closedSamplePull.num, b)] ∧
      (b = CommentBody.forkDisallowed happyRunnerEnv.allowForkPRsFlag ∨
       b = CommentBody.closedPull)) ∧
    logsOf (runAutoplanCommand happyRunnerEnv sampleRepo sampleRepo
      closedSamplePull "alice").1 ≠ [] ∧
    (∀ le ∈ logsOf (runAutoplanCommand happyRunnerEnv sampleRepo sampleRepo
        closedSamplePull "alice").1, le.1 = LogLvl.info) :=
  c6_validation_rejection.1 happyRunnerEnv sampleRepo sampleRepo closedSamplePull "alice"
    (Or.inr (by decide))

/-- Claim C7: in RunAutoplanCommand, the units returned by the builder
are executed sequentially in builder order, every unit executes,
and the resulting CommandResult lists one ProjectResult per unit in
exactly the builder order, both in the aggregate status update and
in the rendered comment. -/
theorem c7_autoplan_order (env : RunnerEnv) (baseRepo headRepo : Repo)
    (pull : PullRequest) (user : String) (cmds : List ProjectCommand)
    (f : ProjectCommand → ProjectCommandResult) (e e2 : Option String)
    (hval : validationPasses env (mkCtx user pull headRepo baseRepo))
    (hup : env.update (mkCtx user pull headRepo baseRepo).baseRepo
      (mkCtx user pull headRepo baseRepo).pull .pending .plan = .returned e)
    (hbuild : env.buildAutoplanCommands (mkCtx user pull headRepo baseRepo) =
      .returned (.ok cmds))
    (hrun : ∀ c, env.runPlan c = .returned (f c))
    (hfinal : env.updateProjectResult CommandName.plan
      (okResults (cmds.map fun c => unitResult (f c) c.repoRelDir c.workspace)) =
      .returned e2) :
    executedOf (runAutoplanCommand env baseRepo headRepo pull user).1 = cmds ∧
    statusResultsOf (runAutoplanCommand env baseRepo headRepo pull user).1 =
      [(CommandName.plan,
        okResults (cmds.map fun c => unitResult (f c) c.repoRelDir c.workspace))] ∧
    commentsOf (runAutoplanCommand env baseRepo headRepo pull user).1 =
      [(baseRepo, pull.num, CommentBody.rendered
        (okResults (cmds.map fun c => unitResult (f c) c.repoRelDir c.workspace))
        .plan false true)] := by
  have hv := validate_pass env (mkCtx user pull headRepo baseRepo) hval
  have hplan := planAll_spec env f hrun cmds
  obtain ⟨hu1, hu2, hu3, hu4, hu5⟩ := updatePull_spec_returned env
    (mkCtx user pull headRepo baseRepo) autoplanInfo
    (okResults (cmds.map fun c => unitResult (f c) c.repoRelDir c.workspace)) e2 hfinal
  have hbody : autoplanBody env (mkCtx user pull headRepo baseRepo) =
      (([] ++ [Event.status .pending .plan] ++ warnIf e) ++ cmds.map Event.execPlan ++
        (updatePull env (mkCtx user pull headRepo baseRepo) autoplanInfo
          (okResults (cmds.map fun c => unitResult (f c) c.repoRelDir c.workspace))).1,
       (updatePull env (mkCtx user pull headRepo baseRepo) autoplanInfo
          (okResults (cmds.map fun c => unitResult (f c) c.repoRelDir c.workspace))).2) := by
    simp [autoplanBody, hv, hup, hbuild, hplan]
  have hmap1 : commentsOf (cmds.map Event.execPlan) = [] := by
    have hq := planAll_comments env cmds
    rw [hplan] at hq
    exact hq
  have hmap3 : statusResultsOf (cmds.map Event.execPlan) = [] := by
    have hq := planAll_statusResults env cmds
    rw [hplan] at hq
    exact hq
  have hrun_eq : runAutoplanCommand env baseRepo headRepo pull user =
      ((([] ++ [Event.status .pending .plan] ++ warnIf e) ++ cmds.map Event.execPlan ++
        (updatePull env (mkCtx user pull headRepo baseRepo) autoplanInfo
          (okResults (cmds.map fun c => unitResult (f c) c.repoRelDir c.workspace))).1),
       none) := by
    simp only [runAutoplanCommand]
    rw [hbody, hu1]
    exact (logPanics_cases (mkCtx user pull headRepo baseRepo) (_, none)).1 rfl
  rw [hrun_eq]
  refine ⟨?_, ?_, ?_⟩
  · rw [executedOf_append, executedOf_append, executedOf_append, executedOf_warnIf,
      executedOf_execPlans, hu5]
    simp [executedOf]
  · rw [statusResultsOf_append, statusResultsOf_append, statusResultsOf_append,
      statusResultsOf_warnIf, hmap3, hu3]
    simp [statusResultsOf, autoplanInfo]
  · rw [commentsOf_append, commentsOf_append, commentsOf_append, commentsOf_warnIf,
      hmap1, hu2]
    simp [commentsOf, autoplanInfo, mkCtx]

/-- Witness for c7_autoplan_order: two units execute in order and the
results list preserves that order. -/
theorem c7_autoplan_order_witness :
    executedOf (runAutoplanCommand twoUnitEnv sampleRepo sampleRepo samplePull "alice").1 =
      [unitOne, unitTwo] ∧
    statusResultsOf (runAutoplanCommand twoUnitEnv sampleRepo sampleRepo
      samplePull "alice").1 =
      [(CommandName.plan,
        okResults ([unitOne, unitTwo].map fun c =>
          unitResult { code := c.payload } c.repoRelDir c.workspace))] ∧
    commentsOf (runAutoplanCommand twoUnitEnv sampleRepo sampleRepo samplePull "alice").1 =
      [(sampleRepo, samplePull.num, CommentBody.rendered
        (okResults ([unitOne, unitTwo].map fun c =>
          unitResult { code := c.payload } c.repoRelDir c.workspace))
        .plan false true)] :=
  c7_autoplan_order twoUnitEnv sampleRepo sampleRepo samplePull "alice"
    [unitOne, unitTwo] (fun c => { code := c.payload }) none none
    (by constructor <;> decide) rfl rfl (fun c => rfl) rfl

/-- Claim C8 counterexample: with no GitHub pull getter configured, a
comment-triggered invocation terminates with the configuration error
only logged at error level: no comment is posted and no commit status
is updated, contrary to the claim that the error is reported as the
fatal CommandResult error of the run via commit status and comment. -/
theorem c8_counterexample :
    runCommentCommand noGetterEnv sampleRepo none "alice" 5 samplePlanCmd =
      ([.logE .error "Atlantis not configured to support GitHub"], none) ∧
    commentsOf (runCommentCommand noGetterEnv sampleRepo none "alice" 5 samplePlanCmd).1 = [] ∧
    statusesOf (runCommentCommand noGetterEnv sampleRepo none "alice" 5 samplePlanCmd).1 = [] ∧
    statusResultsOf (runCommentCommand noGetterEnv sampleRepo none "alice" 5
      samplePlanCmd).1 = [] := by
  refine ⟨by decide, by decide, by decide, by decide⟩

/-- Claim C8 (amended): a comment-triggered invocation on a host whose
pull-getter collaborator is absent is terminal: the configuration
error is logged at error severity and the run aborts with no comment
and no commit-status update, since there is no resolved pull to report
on. -/
theorem c8_missing_getter :
    (∀ (env : RunnerEnv) (baseRepo : Repo) maybeHeadRepo (user : String)
      (pullNum : Int) cmd,
      baseRepo.vcsType = .github → env.githubPullGetter = none →
      runCommentCommand env baseRepo maybeHeadRepo user pullNum cmd =
        ([.logE .error "Atlantis not configured to support GitHub"], none)) ∧
    (∀ (env : RunnerEnv) (baseRepo : Repo) maybeHeadRepo (user : String)
      (pullNum : Int) cmd,
      baseRepo.vcsType = .gitlab → env.gitlabMergeRequestGetter = none →
      runCommentCommand env baseRepo maybeHeadRepo user pullNum cmd =
        ([.logE .error "Atlantis not configured to support GitLab"], none)) := by
  constructor
  · intro env baseRepo maybeHeadRepo user pullNum cmd hvcs hnil
    simp [runCommentCommand, resolveCommentPull, hvcs, getGithubData, hnil]
  · intro env baseRepo maybeHeadRepo user pullNum cmd hvcs hnil
    simp [runCommentCommand, resolveCommentPull, hvcs, getGitlabData, hnil]

/-- Witness for c8_missing_getter at the concrete getter-less
environment. -/
theorem c8_missing_getter_witness :
    runCommentCommand noGetterEnv sampleRepo none "bob" 7 samplePlanCmd =
      ([.logE .error "Atlantis not configured to support GitHub"], none) :=
  c8_missing_getter.1 noGetterEnv sampleRepo none "bob" 7 samplePlanCmd rfl rfl

end Atlantis
